import Mathlib

/-!
Verification of the SSCore ephemeris-and-event engine (SSEvent.cpp, SSPlanet.cpp)
against its natural-language specification.

Doubles are modelled as real numbers; the C sentinels +INFINITY / -INFINITY
(and HUGE_VAL) are modelled by working in `EReal` where a function can return
them.  External collaborators (SSTime's sidereal-time and local-midnight
services, the frame transforms producing an object's equatorial and horizon
coordinates after `computeEphemeris`) are modelled as explicit function
parameters, since their implementations live outside this repository's core.
-/

namespace SSCore

noncomputable section

/-- SSAngle::kPi. -/
def kPi : ℝ := Real.pi

/-- SSAngle::kTwoPi. -/
def kTwoPi : ℝ := 2 * Real.pi

/-- SSAngle::kDegPerRad (degrees per radian, 180/π). -/
def kDegPerRad : ℝ := 180 / Real.pi

/-- SSAngle::kRadPerDeg (radians per degree, π/180). -/
def kRadPerDeg : ℝ := Real.pi / 180

/-- SSTime::kSecondsPerDay. -/
def kSecondsPerDay : ℝ := 86400

/-- SSTime::kMinutesPerDay. -/
def kMinutesPerDay : ℝ := 1440

/-- Modelled from the spec: SSTime::kSiderealPerSolarDays, the sidereal rate
(sidereal days per solar day); the constant lives in the external SSTime class.
Its standard value is 1.002737909350795. -/
def kSiderealPerSolarDays : ℝ := 1.002737909350795

/-- Modelled from the spec: SSAngle::modPi, which reduces an angle into the
range (-π, π] (spec 4.4: "reduced into (−π, π]"); the implementation lives in
the external SSAngle class. -/
def modPi (x : ℝ) : ℝ := x - kTwoPi * ⌈(x - kPi) / kTwoPi⌉

/-- SSPlanet::illumination (SSPlanet.cpp line 198): the body of the C++
function is `return 1.0 + cos ( phase ) / 2.0;`, which by C operator
precedence is 1 + (cos phase)/2. -/
def illumination (phase : ℝ) : ℝ := 1 + Real.cos phase / 2

/-- The local variable `cosha` of SSEvent::semiDiurnalArc (SSEvent.cpp line 17). -/
def cosHA (lat dec alt : ℝ) : ℝ :=
  (Real.sin alt - Real.sin dec * Real.sin lat) / (Real.cos dec * Real.cos lat)

/-- SSEvent::semiDiurnalArc (SSEvent.cpp lines 15-25). -/
def semiDiurnalArc (lat dec alt : ℝ) : ℝ :=
  if cosHA lat dec alt ≥ 1 then 0
  else if cosHA lat dec alt ≤ -1 then kPi
  else Real.arccos (cosHA lat dec alt)

/-- The step-size selection inside SSEvent::findSatellitePasses (SSEvent.cpp
lines 233-236): `if ( hor.lat > -1.0 * SSAngle::kDegPerRad ) step = 1 second
else step = 1 minute` (step is in days). -/
def satStep (horLat : ℝ) : ℝ :=
  if horLat > -1 * kDegPerRad then 1 / kSecondsPerDay else 1 / kMinutesPerDay

/-- The local variable `mag = (1.0 - g) * phi1 + g * phi2` of
SSPlanet::computeAsteroidMagnitude (SSPlanet.cpp lines 271-273), the combined
H-G phase factor; C `pow` on the tangent is `Real.rpow`. -/
def phaseFactor (phase g : ℝ) : ℝ :=
  (1 - g) * Real.exp (-3.33 * Real.tan (phase / 2) ^ (0.63 : ℝ)) +
    g * Real.exp (-1.87 * Real.tan (phase / 2) ^ (1.22 : ℝ))

/-- SSPlanet::computeAsteroidMagnitude (SSPlanet.cpp lines 269-275).
`HUGE_VAL` is modelled as `⊤ : EReal`; `log10` is `Real.logb 10`. -/
def computeAsteroidMagnitude (rad dist phase h g : ℝ) : EReal :=
  if phaseFactor phase g > 0 then
    ((h + 5 * Real.logb 10 (rad * dist) - 2.5 * Real.logb 10 (phaseFactor phase g) : ℝ) : EReal)
  else ⊤

/-- SSEvent::riseTransitSet, raw-angles overload (SSEvent.cpp lines 44-74).
The external sidereal-time service `time.getSiderealTime(lon)` is passed in
as the function `L`.  Returns `⊤`/`⊥` for the +INFINITY / -INFINITY sentinels. -/
def riseTransitSet (L : ℝ → ℝ → ℝ) (time ra dec : ℝ) (sign : ℤ) (lon lat alt : ℝ) : EReal :=
  let ha := semiDiurnalArc lat dec alt
  if ha = kPi ∧ sign ≠ 0 then ⊤
  else if ha = 0 then ⊥
  else
    let lst := L time lon
    let theta := modPi (ra - lst + (sign : ℝ) * ha)
    ((time + theta / kTwoPi / kSiderealPerSolarDays : ℝ) : EReal)

/-- The external services consumed by the event solver, bundled: `lst` models
`SSTime::getSiderealTime` (time, longitude ↦ local sidereal time);
`localMidnight` models `SSTime::getLocalMidnight`; `lon`/`lat` are the fixed
observer location from `coords.getLocation()`; `raOf`/`decOf` give the
object's equatorial coordinates after `computeEphemeris` at a time, and
`azmOf`/`altOf` its horizon-frame azimuth/altitude at a time (the call sites
always read them with the context time equal to the ephemeris time). -/
structure Services where
  lst : ℝ → ℝ → ℝ
  localMidnight : ℝ → ℝ
  lon : ℝ
  lat : ℝ
  raOf : ℝ → ℝ
  decOf : ℝ → ℝ
  azmOf : ℝ → ℝ
  altOf : ℝ → ℝ

/-- The mutable observer-context state threaded through the solvers:
`time` is the SSCoordinates time field, `ephTime` the time at which the
object's ephemeris state was last recomputed. -/
structure SSCoordinatesState where
  time : ℝ
  ephTime : ℝ

/-- SSEvent::riseTransitSet, object/context overload (SSEvent.cpp lines
79-84): reads the observer location and the object's current equatorial
coordinates, then calls the raw overload.  In every use inside this core the
context time and ephemeris time both equal `time`. -/
noncomputable def riseTransitSetObj (P : Services) (time : ℝ) (sign : ℤ) (alt : ℝ) : EReal :=
  riseTransitSet P.lst time (P.raOf time) (P.decOf time) sign P.lon P.lat alt

/-- The convergence tolerance of SSEvent::riseTransitSetSearch
(SSEvent.cpp line 96): one second of time as a fraction of a day. -/
noncomputable def precision : ℝ := 1 / kSecondsPerDay

/-- The do/while loop of SSEvent::riseTransitSetSearch (SSEvent.cpp lines
102-110), with the remaining-iteration budget as fuel: each call runs one loop
body (set context to `t`, recompute the ephemeris, compute the refined guess);
the loop continues while the guess moved more than the tolerance, is finite,
and iterations remain.  Returns (final guess, last time set in the context). -/
noncomputable def searchAux (P : Services) (sign : ℤ) (alt : ℝ) : ℕ → ℝ → EReal × ℝ
  | 0, t => (riseTransitSetObj P t sign alt, t)
  | fuel + 1, t =>
    let t2 := riseTransitSetObj P t sign alt
    if t2 = ⊤ ∨ t2 = ⊥ then (t2, t)
    else if |t2.toReal - t| ≤ precision then (t2, t)
    else searchAux P sign alt fuel t2.toReal

/-- SSEvent::riseTransitSetSearch (SSEvent.cpp lines 92-113): the iterative
search with its cap of 10 iterations (one mandatory body execution plus at
most 9 more).  On return the context holds the last time that was set
(the `lasttime` of the final iteration), with the ephemeris computed there. -/
noncomputable def riseTransitSetSearch (P : Services) (sign : ℤ) (alt time : ℝ)
    (st : SSCoordinatesState) : EReal × SSCoordinatesState :=
  let r := searchAux P sign alt 9 time
  (r.1, ⟨r.2, r.2⟩)

/-- The sequence of time guesses produced by the riseTransitSetSearch
iteration, starting from `t0`; an infinite guess is absorbing. -/
noncomputable def guessSeq (P : Services) (sign : ℤ) (alt t0 : ℝ) : ℕ → EReal
  | 0 => ((t0 : ℝ) : EReal)
  | n + 1 =>
    let g := guessSeq P sign alt t0 n
    if g = ⊤ ∨ g = ⊥ then g else riseTransitSetObj P g.toReal sign alt

/-- Number of loop-body executions `searchAux` performs from fuel and start. -/
noncomputable def searchStepsAux (P : Services) (sign : ℤ) (alt : ℝ) : ℕ → ℝ → ℕ
  | 0, _ => 1
  | fuel + 1, t =>
    let t2 := riseTransitSetObj P t sign alt
    if t2 = ⊤ ∨ t2 = ⊥ then 1
    else if |t2.toReal - t| ≤ precision then 1
    else 1 + searchStepsAux P sign alt fuel t2.toReal

/-- Number of iterations performed by riseTransitSetSearch (i and imax of
SSEvent.cpp lines 95-110: at most 10). -/
noncomputable def searchSteps (P : Services) (sign : ℤ) (alt t0 : ℝ) : ℕ :=
  searchStepsAux P sign alt 9 t0

/-- The final out-of-day check of riseTransitSetSearchDay (SSEvent.cpp lines
147-153): a time past the day's end or before its start is replaced by -∞ for
a rise query (sign = -1) and +∞ otherwise. -/
noncomputable def dayClamp (sign : ℤ) (start dayEnd : ℝ)
    (r : EReal × SSCoordinatesState) : EReal × SSCoordinatesState :=
  if r.1 > (dayEnd : EReal) ∨ r.1 < (start : EReal) then
    (if sign = -1 then (⊥, r.2) else (⊤, r.2))
  else r

/-- SSEvent::riseTransitSetSearchDay (SSEvent.cpp lines 121-156): search from
local noon, retry from the previous/next day's noon if the result falls past
the day's end / before its start, and map any result still outside
[start, end] to -∞ (rise queries) or +∞ (others). -/
noncomputable def riseTransitSetSearchDay (P : Services) (sign : ℤ) (alt today : ℝ)
    (st : SSCoordinatesState) : EReal × SSCoordinatesState :=
  let start := P.localMidnight today
  let dayEnd := start + 1
  let r1 := riseTransitSetSearch P sign alt (start + 0.5) st
  let r2 :=
    if r1.1 > (dayEnd : EReal) then riseTransitSetSearch P sign alt (start - 0.5) r1.2
    else if r1.1 < (start : EReal) then riseTransitSetSearch P sign alt (dayEnd + 0.5) r1.2
    else r1
  dayClamp sign start dayEnd r2

/-- One component of an SSPass (SSEvent.hpp): event time with azimuth and
altitude; time is EReal because ±∞ are "did not occur" sentinels. -/
structure SSPassEvent where
  time : EReal
  azm : ℝ
  alt : ℝ

/-- SSPass: rising, transit and setting circumstances. -/
structure SSPass where
  rising : SSPassEvent
  transit : SSPassEvent
  setting : SSPassEvent

/-- The all-zero initializer `SSPass pass = { 0.0 }`. -/
noncomputable def zeroPassEvent : SSPassEvent := ⟨((0 : ℝ) : EReal), 0, 0⟩

/-- The all-zero initializer for a whole pass. -/
noncomputable def zeroPass : SSPass := ⟨zeroPassEvent, zeroPassEvent, zeroPassEvent⟩

/-- One capture block of the SSPass-returning riseTransitSet overload
(SSEvent.cpp lines 171-193): the time field is always stored; azimuth and
altitude are captured from the context's horizon transform only when the time
is finite, and keep their zero initialization otherwise. -/
noncomputable def mkPassEvent (P : Services) (t : EReal) (ctime : ℝ) : SSPassEvent :=
  if t = ⊤ ∨ t = ⊥ then ⟨t, 0, 0⟩ else ⟨t, P.azmOf ctime, P.altOf ctime⟩

/-- SSEvent::riseTransitSet, SSPass overload (SSEvent.cpp lines 165-201):
runs the day-bounded search for rise (sign -1, altitude alt), transit (sign 0,
altitude 0) and set (sign +1, altitude alt), capturing horizon coordinates at
the context state each search leaves behind, then restores the saved context
time and recomputes the ephemeris there. -/
noncomputable def riseTransitSetPass (P : Services) (today alt : ℝ)
    (st : SSCoordinatesState) : SSPass × SSCoordinatesState :=
  let savetime := st.time
  let r1 := riseTransitSetSearchDay P (-1) alt today st
  let rising := mkPassEvent P r1.1 r1.2.time
  let r2 := riseTransitSetSearchDay P 0 0 today r1.2
  let transit := mkPassEvent P r2.1 r2.2.time
  let r3 := riseTransitSetSearchDay P 1 alt today r2.2
  let setting := mkPassEvent P r3.1 r3.2.time
  (⟨rising, transit, setting⟩, ⟨savetime, savetime⟩)

/-- Loop state of SSEvent::findSatellitePasses (SSEvent.cpp lines 212-216):
the in-progress pass, running peak altitude, previous sample's altitude, the
accumulated output vector, and the mutated context. -/
structure SatState where
  pass : SSPass
  maxAlt : ℝ
  oldAlt : ℝ
  passes : List SSPass
  ct : SSCoordinatesState

/-- The event-detection block of findSatellitePasses (SSEvent.cpp lines
238-271), executed for every sample after the first: record a rising crossing,
update the running peak (transit), and on a setting crossing emit the pass and
reset the peak. -/
noncomputable def satProcess (minAlt time azm alt : ℝ) (s : SatState) : SatState :=
  let ev : SSPassEvent := ⟨((time : ℝ) : EReal), azm, alt⟩
  let s1 :=
    if alt > minAlt ∧ s.oldAlt < minAlt then
      { s with pass := { s.pass with rising := ev } }
    else s
  let s2 :=
    if alt > s1.maxAlt then
      let p2 := { s1.pass with transit := ev }
      { s1 with pass := p2, maxAlt := alt }
    else s1
  if s2.oldAlt > minAlt ∧ alt < minAlt then
    let p3 := { s2.pass with setting := ev }
    { s2 with pass := p3, passes := s2.passes ++ [p3], maxAlt := 0 }
  else s2

/-- The sweep loop of findSatellitePasses (SSEvent.cpp lines 218-274), with
fuel bounding the number of samples: at each sample set the context time,
recompute the satellite ephemeris, read azimuth/altitude, select the next
step size, run the detection block (except at the very first sample), and
advance by the step. -/
noncomputable def findSatAux (P : Services) (start stop minAlt : ℝ) :
    ℕ → ℝ → SatState → SatState
  | 0, _, s => s
  | fuel + 1, time, s =>
    if time ≤ stop then
      let alt := P.altOf time
      let azm := P.azmOf time
      let step := satStep alt
      let s1 := { s with ct := (⟨time, time⟩ : SSCoordinatesState) }
      let s2 := if time > start then satProcess minAlt time azm alt s1 else s1
      findSatAux P start stop minAlt fuel (time + step) { s2 with oldAlt := alt }
    else s

/-- Fuel sufficient for the sweep: both step sizes are ≥ 1 second, so the
loop takes at most (stop - start)·86400 + 2 samples. -/
noncomputable def satFuel (start stop : ℝ) : ℕ :=
  (⌈(stop - start) * kSecondsPerDay⌉).toNat + 2

/-- SSEvent::findSatellitePasses (SSEvent.cpp lines 210-282): sweeps from
start to stop appending detected passes to the caller's vector, then restores
the saved context time and recomputes the satellite ephemeris there; returns
the vector's total size, the vector, and the final context state. -/
noncomputable def findSatellitePasses (P : Services) (start stop minAlt : ℝ)
    (passes0 : List SSPass) (st : SSCoordinatesState) :
    ℕ × List SSPass × SSCoordinatesState :=
  let savetime := st.time
  let s := findSatAux P start stop minAlt (satFuel start stop) start
    ⟨zeroPass, 0, 0, passes0, st⟩
  (s.passes.length, s.passes, ⟨savetime, savetime⟩)

end

end SSCore

namespace SSCore

/-! ## Basic facts about the embedded definitions -/

theorem modPi_spec (x : ℝ) : ∃ n : ℤ, x - modPi x = kTwoPi * n :=
  ⟨⌈(x - kPi) / kTwoPi⌉, by unfold modPi; ring⟩

theorem modPi_mem (x : ℝ) : -kPi < modPi x ∧ modPi x ≤ kPi := by
  have hpi : (0 : ℝ) < Real.pi := Real.pi_pos
  have h2pi : (0 : ℝ) < kTwoPi := by simp only [kTwoPi]; linarith
  have h3 : kTwoPi * ((x - kPi) / kTwoPi) = x - kPi := by
    rw [mul_comm]; exact div_mul_cancel₀ _ (ne_of_gt h2pi)
  constructor
  · have h := Int.ceil_lt_add_one ((x - kPi) / kTwoPi)
    have h2 : kTwoPi * (⌈(x - kPi) / kTwoPi⌉ : ℝ) < kTwoPi * ((x - kPi) / kTwoPi + 1) :=
      (mul_lt_mul_left h2pi).mpr h
    have hpi2 : kTwoPi = 2 * kPi := by simp [kTwoPi, kPi]
    simp only [modPi]
    nlinarith [h2, h3]
  · have h := Int.le_ceil ((x - kPi) / kTwoPi)
    have h2 : kTwoPi * ((x - kPi) / kTwoPi) ≤ kTwoPi * (⌈(x - kPi) / kTwoPi⌉ : ℝ) :=
      (mul_le_mul_left h2pi).mpr h
    simp only [modPi]
    linarith

theorem modPi_zero : modPi 0 = 0 := by
  have hpi : Real.pi ≠ 0 := Real.pi_ne_zero
  have harg : (0 - kPi) / kTwoPi = -(1 / 2 : ℝ) := by
    simp only [kPi, kTwoPi]
    field_simp
    ring
  have hceil : ⌈(-(1 / 2) : ℝ)⌉ = 0 := by
    rw [Int.ceil_eq_zero_iff]
    constructor <;> norm_num
  rw [modPi, harg, hceil]
  simp

/-! ## Claim C1 -/

/-- C1 (code bug evidence): the public illumination function, whose body is
`1.0 + cos ( phase ) / 2.0`, returns 3/2 at phase 0 and 1/2 at phase π —
not the claimed (1 + cos p)/2, which would give 1 and 0; the results lie
outside the documented [0, 1] range. -/
theorem illumination_code_bug :
    illumination 0 = 3 / 2 ∧ illumination Real.pi = 1 / 2 := by
  constructor
  · simp [illumination]; norm_num
  · simp [illumination, Real.cos_pi]; norm_num

/-! ## Claim C2 -/

/-- C2 (code bug evidence): the step selection in findSatellitePasses compares
the horizon altitude against `-1.0 * kDegPerRad` = -(180/π) radians ≈ -57.3
radians rather than -1 degree = -π/180 radians, so at altitude -0.1 rad
(≈ -5.7°, well below 1° under the horizon) it still selects the fine 1-second
step instead of the coarse 1-minute step demanded by the claim. -/
theorem satStep_code_bug :
    satStep (-0.1) = 1 / kSecondsPerDay ∧ (-0.1 : ℝ) < -kRadPerDeg ∧
      (1 / kSecondsPerDay : ℝ) ≠ 1 / kMinutesPerDay := by
  have hpi_lt : Real.pi < 3.15 := by
    have := Real.pi_lt_315
    linarith
  have hpos : (0 : ℝ) < Real.pi := Real.pi_pos
  have hd : (1 : ℝ) < 180 / Real.pi := by
    rw [lt_div_iff hpos]
    nlinarith
  refine ⟨?_, ?_, ?_⟩
  · rw [satStep, if_pos]
    rw [kDegPerRad]
    show -1 * (180 / Real.pi) < -0.1
    nlinarith
  · rw [kRadPerDeg]
    have hsmall : Real.pi / 180 < 0.1 := by
      rw [div_lt_iff (by norm_num : (0 : ℝ) < 180)]
      nlinarith
    linarith
  · rw [kSecondsPerDay, kMinutesPerDay]
    norm_num

/-! ## Claim C6 -/

/-- C6: semiDiurnalArc returns exactly 0 when the cosine solution c is ≥ 1,
exactly π when c ≤ -1, and arccos c — a value in [0, π] — otherwise. -/
theorem semiDiurnalArc_cases (lat dec alt : ℝ) :
    (cosHA lat dec alt ≥ 1 → semiDiurnalArc lat dec alt = 0) ∧
    (cosHA lat dec alt ≤ -1 → semiDiurnalArc lat dec alt = kPi) ∧
    (-1 < cosHA lat dec alt → cosHA lat dec alt < 1 →
      semiDiurnalArc lat dec alt = Real.arccos (cosHA lat dec alt) ∧
      0 ≤ semiDiurnalArc lat dec alt ∧ semiDiurnalArc lat dec alt ≤ kPi) := by
  refine ⟨?_, ?_, ?_⟩
  · intro h
    rw [semiDiurnalArc, if_pos h]
  · intro h
    have h1 : ¬cosHA lat dec alt ≥ 1 := by
      simp only [ge_iff_le, not_le]
      linarith
    rw [semiDiurnalArc, if_neg h1, if_pos h]
  · intro h1 h2
    have hn1 : ¬cosHA lat dec alt ≥ 1 := by
      simp only [ge_iff_le, not_le]
      linarith
    have hn2 : ¬cosHA lat dec alt ≤ -1 := by
      simp only [not_le]
      linarith
    rw [semiDiurnalArc, if_neg hn1, if_neg hn2]
    exact ⟨rfl, Real.arccos_nonneg _, by rw [kPi]; exact Real.arccos_le_pi _⟩

/-- Witness for C6 at concrete inputs: lat = 0, dec = 0, alt = π/2 gives
c = 1 hence arc 0; lat = 0, dec = 0, alt = 0 gives c = 0 hence arccos 0. -/
theorem semiDiurnalArc_cases_witness :
    semiDiurnalArc 0 0 (Real.pi / 2) = 0 ∧ semiDiurnalArc 0 0 0 = Real.arccos 0 := by
  have hc1 : cosHA 0 0 (Real.pi / 2) = 1 := by
    simp [cosHA]
  have hc0 : cosHA 0 0 0 = 0 := by
    simp [cosHA]
  constructor
  · exact (semiDiurnalArc_cases 0 0 (Real.pi / 2)).1 (by rw [hc1])
  · have h := (semiDiurnalArc_cases 0 0 0).2.2 (by rw [hc0]; norm_num) (by rw [hc0]; norm_num)
    rw [h.1, hc0]

/-! ## Shared helper lemmas about riseTransitSet -/

theorem riseTransitSet_eq_top {L : ℝ → ℝ → ℝ} {time ra dec : ℝ} {sign : ℤ} {lon lat alt : ℝ}
    (h : semiDiurnalArc lat dec alt = kPi) (hs : sign ≠ 0) :
    riseTransitSet L time ra dec sign lon lat alt = ⊤ := by
  simp [riseTransitSet, h, hs]

theorem riseTransitSet_eq_bot {L : ℝ → ℝ → ℝ} {time ra dec : ℝ} {sign : ℤ} {lon lat alt : ℝ}
    (h : semiDiurnalArc lat dec alt = 0) :
    riseTransitSet L time ra dec sign lon lat alt = ⊥ := by
  have hpi0 : (0 : ℝ) ≠ kPi := by
    rw [kPi]
    exact fun hh => Real.pi_ne_zero hh.symm
  simp [riseTransitSet, h, hpi0]

/-- With sign = 0 (transit) and a nonzero semi-diurnal arc, riseTransitSet
reduces to the closed-form transit time, in which the arc cancels. -/
theorem riseTransitSet_sign_zero (L : ℝ → ℝ → ℝ) (time ra dec lon lat alt : ℝ)
    (h : semiDiurnalArc lat dec alt ≠ 0) :
    riseTransitSet L time ra dec 0 lon lat alt =
      ((time + modPi (ra - L time lon) / kTwoPi / kSiderealPerSolarDays : ℝ) : EReal) := by
  simp only [riseTransitSet]
  rw [if_neg (fun hc => hc.2 rfl), if_neg h]
  norm_num

/-- modPi is the identity on (-π, π]. -/
theorem modPi_eq_self {x : ℝ} (h1 : -kPi < x) (h2 : x ≤ kPi) : modPi x = x := by
  have hpi : (0 : ℝ) < Real.pi := Real.pi_pos
  have h2pi : (0 : ℝ) < kTwoPi := by simp only [kTwoPi]; linarith
  have hpi2 : kTwoPi = 2 * kPi := by simp [kTwoPi, kPi]
  have hc : ⌈(x - kPi) / kTwoPi⌉ = 0 := by
    rw [Int.ceil_eq_zero_iff, Set.mem_Ioc]
    constructor
    · rw [lt_div_iff h2pi]
      simp only [kPi] at h1 ⊢
      simp only [kTwoPi]
      nlinarith
    · apply div_nonpos_of_nonpos_of_nonneg
      · linarith
      · linarith
  simp [modPi, hc]

/-- Numeric bounds on the sidereal-rate constant. -/
theorem kSiderealPerSolarDays_bounds :
    (1 : ℝ) < kSiderealPerSolarDays ∧ kSiderealPerSolarDays < 2 := by
  rw [kSiderealPerSolarDays]
  norm_num

/-- The semi-diurnal arc at the equator for an equatorial object and horizon
altitude 0 is π/2 (a quarter turn). -/
theorem semiDiurnalArc_000 : semiDiurnalArc 0 0 0 = Real.pi / 2 := by
  have hc : cosHA 0 0 0 = 0 := by simp [cosHA]
  rw [semiDiurnalArc, hc, if_neg (by norm_num), if_neg (by norm_num), Real.arccos_zero]

theorem semiDiurnalArc_000_ne : semiDiurnalArc 0 0 0 ≠ 0 := by
  rw [semiDiurnalArc_000]
  have := Real.pi_pos
  linarith

/-- A concrete linear sidereal-time model: starts at angle `lon` at time 0 and
advances at the sidereal rate of 2π per sidereal day. -/
noncomputable def L0 : ℝ → ℝ → ℝ := fun t u => kTwoPi * kSiderealPerSolarDays * t + u

theorem L0_linear : ∀ t u : ℝ, L0 t u = L0 0 u + kTwoPi * kSiderealPerSolarDays * t := by
  intro t u
  simp [L0]
  ring

/-! ## Claim C7 -/

/-- C7: riseTransitSet returns +∞ when the semi-diurnal arc is π and sign ≠ 0
(object never sets), and -∞ when the arc is 0 (object never rises). -/
theorem riseTransitSet_never_sentinels (L : ℝ → ℝ → ℝ) (time ra dec : ℝ) (sign : ℤ)
    (lon lat alt : ℝ) :
    (semiDiurnalArc lat dec alt = kPi → sign ≠ 0 →
      riseTransitSet L time ra dec sign lon lat alt = ⊤) ∧
    (semiDiurnalArc lat dec alt = 0 →
      riseTransitSet L time ra dec sign lon lat alt = ⊥) := by
  constructor
  · intro h hs
    simp [riseTransitSet, h, hs]
  · intro h
    have hpi0 : (0 : ℝ) ≠ kPi := by
      rw [kPi]
      exact fun hh => Real.pi_ne_zero hh.symm
    simp [riseTransitSet, h, hpi0]

/-- Witness for C7: an object always above altitude -π/2 as seen from the
equator (arc π, sign +1) yields +∞; one never above altitude π/2 (arc 0,
sign -1) yields -∞. -/
theorem riseTransitSet_never_sentinels_witness :
    riseTransitSet (fun _ _ => 0) 0 0 0 (-1) 0 0 (Real.pi / 2) = ⊥ ∧
    riseTransitSet (fun _ _ => 0) 0 0 0 1 0 0 (-(Real.pi / 2)) = ⊤ := by
  have h0 : semiDiurnalArc 0 0 (Real.pi / 2) = 0 := by
    have hc1 : cosHA 0 0 (Real.pi / 2) = 1 := by simp [cosHA]
    rw [semiDiurnalArc, hc1, if_pos (by norm_num)]
  have hpi : semiDiurnalArc 0 0 (-(Real.pi / 2)) = kPi := by
    have hc : cosHA 0 0 (-(Real.pi / 2)) = -1 := by simp [cosHA]
    rw [semiDiurnalArc, hc, if_neg (by norm_num), if_pos (by norm_num)]
  constructor
  · exact (riseTransitSet_never_sentinels _ 0 0 0 (-1) 0 0 _).2 h0
  · exact (riseTransitSet_never_sentinels _ 0 0 0 1 0 0 _).1 hpi (by decide)

/-! ## Claim C10 -/

/-- C10: computeAsteroidMagnitude returns the infinite "undefined magnitude"
sentinel when the combined H-G phase factor is ≤ 0 (never taking the log of a
non-positive number), and otherwise the finite value
h + 5·log10(rad·dist) - 2.5·log10(factor). -/
theorem computeAsteroidMagnitude_sentinel (rad dist phase h g : ℝ) :
    (phaseFactor phase g ≤ 0 → computeAsteroidMagnitude rad dist phase h g = ⊤) ∧
    (0 < phaseFactor phase g →
      computeAsteroidMagnitude rad dist phase h g =
        ((h + 5 * Real.logb 10 (rad * dist) - 2.5 * Real.logb 10 (phaseFactor phase g) : ℝ) :
          EReal) ∧
      computeAsteroidMagnitude rad dist phase h g ≠ ⊤) := by
  have hnot : phaseFactor phase g ≤ 0 → ¬phaseFactor phase g > 0 := by
    intro hle
    simp only [gt_iff_lt, not_lt]
    exact hle
  constructor
  · intro hle
    rw [computeAsteroidMagnitude, if_neg (hnot hle)]
  · intro hgt
    constructor
    · rw [computeAsteroidMagnitude, if_pos hgt]
    · rw [computeAsteroidMagnitude, if_pos hgt]
      exact EReal.coe_ne_top _

/-- Witness for C10 at concrete inputs covering both branches: at phase 0 the
factor is 1 so the magnitude is finite (h = 7, rad = dist = 1 gives 7); at
phase π/2 with g = -10 the factor 11·e^(-3.33) - 10·e^(-1.87) is ≤ 0, so the
sentinel ⊤ is returned. -/
theorem computeAsteroidMagnitude_sentinel_witness :
    computeAsteroidMagnitude 1 1 0 7 0.15 = ((7 : ℝ) : EReal) ∧
    computeAsteroidMagnitude 1 1 (Real.pi / 2) 0 (-10) = ⊤ := by
  have hf0 : phaseFactor 0 0.15 = 1 := by
    rw [phaseFactor]
    rw [show (0 : ℝ) / 2 = 0 by norm_num, Real.tan_zero]
    rw [Real.zero_rpow (by norm_num), Real.zero_rpow (by norm_num)]
    norm_num
  have htan : Real.tan (Real.pi / 2 / 2) = 1 := by
    rw [show Real.pi / 2 / 2 = Real.pi / 4 by ring, Real.tan_pi_div_four]
  have hfneg : phaseFactor (Real.pi / 2) (-10) ≤ 0 := by
    rw [phaseFactor, htan, Real.one_rpow, Real.one_rpow]
    have h1 : (2.46 : ℝ) ≤ Real.exp 1.46 := by
      have := Real.add_one_le_exp (1.46 : ℝ)
      linarith
    have h2 : Real.exp (-3.33 : ℝ) = Real.exp (-1.87) * Real.exp (-1.46) := by
      rw [← Real.exp_add]; norm_num
    have h3 : Real.exp (-1.46 : ℝ) ≤ 1 / 2.46 := by
      rw [show (-1.46 : ℝ) = -(1.46) by norm_num, Real.exp_neg]
      rw [inv_eq_one_div]
      rw [div_le_div_iff (Real.exp_pos _) (by norm_num)]
      linarith
    have hp : (0 : ℝ) < Real.exp (-1.87) := Real.exp_pos _
    have hq : (0 : ℝ) < Real.exp (-1.46) := Real.exp_pos _
    nlinarith [h2, h3, hp, hq]
  constructor
  · have h := ((computeAsteroidMagnitude_sentinel 1 1 0 7 0.15).2 (by rw [hf0]; norm_num)).1
    rw [h, hf0]
    norm_num
  · exact (computeAsteroidMagnitude_sentinel 1 1 (Real.pi / 2) 0 (-10)).1 hfneg

/-! ## Claim C3 -/

theorem modPi_two_pi_int (n : ℤ) : modPi (kTwoPi * n) = 0 := by
  have hpi : (0 : ℝ) < Real.pi := Real.pi_pos
  have h2pi : kTwoPi ≠ 0 := by
    simp only [kTwoPi]
    positivity
  have harg : (kTwoPi * n - kPi) / kTwoPi = -(1 / 2 : ℝ) + n := by
    rw [div_eq_iff h2pi]
    simp only [kTwoPi, kPi]
    ring
  have hceil : ⌈(-(1 / 2) : ℝ)⌉ = 0 := by
    rw [Int.ceil_eq_zero_iff, Set.mem_Ioc]
    constructor <;> norm_num
  have hc : ⌈(kTwoPi * n - kPi) / kTwoPi⌉ = n := by
    rw [harg, Int.ceil_add_int, hceil, zero_add]
  rw [modPi, hc]
  ring

/-- C3 (amended): with sign = 0 and a nonzero semi-diurnal arc for the given
altitude, riseTransitSet returns a finite time at which the object's hour
angle (local sidereal time minus right ascension) reduces to exactly 0, and
that time is the same for every altitude argument whose arc is nonzero; when
the arc is 0 the function instead returns the -∞ sentinel (see the
counterexample), so the original claim's unconditional finiteness and
altitude-independence fail. -/
theorem riseTransitSet_transit_hour_angle (L : ℝ → ℝ → ℝ) (time ra dec lon lat alt : ℝ)
    (hl : ∀ t u : ℝ, L t u = L 0 u + kTwoPi * kSiderealPerSolarDays * t)
    (h : semiDiurnalArc lat dec alt ≠ 0) :
    ∃ t : ℝ, riseTransitSet L time ra dec 0 lon lat alt = ((t : ℝ) : EReal) ∧
      modPi (L t lon - ra) = 0 ∧
      (∀ alt2 : ℝ, semiDiurnalArc lat dec alt2 ≠ 0 →
        riseTransitSet L time ra dec 0 lon lat alt2 = ((t : ℝ) : EReal)) := by
  have hpi : (0 : ℝ) < Real.pi := Real.pi_pos
  have hk : kSiderealPerSolarDays ≠ 0 := by
    have := kSiderealPerSolarDays_bounds.1
    linarith
  have h2pi : kTwoPi ≠ 0 := by
    simp only [kTwoPi]
    positivity
  refine ⟨time + modPi (ra - L time lon) / kTwoPi / kSiderealPerSolarDays,
    riseTransitSet_sign_zero L time ra dec lon lat alt h, ?_, ?_⟩
  · obtain ⟨n, hn⟩ := modPi_spec (ra - L time lon)
    have hcancel : kTwoPi * kSiderealPerSolarDays *
        (modPi (ra - L time lon) / kTwoPi / kSiderealPerSolarDays) =
        modPi (ra - L time lon) := by
      field_simp
    have hLT : L (time + modPi (ra - L time lon) / kTwoPi / kSiderealPerSolarDays) lon - ra =
        kTwoPi * ((-n : ℤ) : ℝ) := by
      rw [hl (time + modPi (ra - L time lon) / kTwoPi / kSiderealPerSolarDays) lon]
      rw [mul_add, hcancel]
      have ht := hl time lon
      push_cast
      linear_combination -hn - ht
    rw [hLT]
    exact modPi_two_pi_int (-n)
  · intro alt2 h2
    rw [riseTransitSet_sign_zero L time ra dec lon lat alt2 h2]

/-- C3 counterexample: at time 0, ra = dec = 0, observer at the origin, the
transit query (sign 0) returns the finite time 0 for horizon altitude 0 but
the -∞ sentinel for horizon altitude π/2 (where the semi-diurnal arc is 0) —
so the result is neither always finite nor independent of the altitude
argument. -/
theorem riseTransitSet_transit_counterexample :
    riseTransitSet L0 0 0 0 0 0 0 (Real.pi / 2) = (⊥ : EReal) ∧
    riseTransitSet L0 0 0 0 0 0 0 0 = ((0 : ℝ) : EReal) := by
  constructor
  · apply riseTransitSet_eq_bot
    have hc : cosHA 0 0 (Real.pi / 2) = 1 := by simp [cosHA]
    rw [semiDiurnalArc, hc, if_pos (by norm_num)]
  · rw [riseTransitSet_sign_zero L0 0 0 0 0 0 0 semiDiurnalArc_000_ne]
    congr 1
    norm_num [L0, modPi_zero]

/-- Witness for C3 at a concrete input: with the linear sidereal model L0 and
time = ra = dec = lon = lat = 0, the transit time is 0, its hour angle reduces
to 0, and altitude -π/2 (arc π, also nonzero) yields the same transit time. -/
theorem riseTransitSet_transit_hour_angle_witness :
    riseTransitSet L0 0 0 0 0 0 0 0 = ((0 : ℝ) : EReal) ∧
    modPi (L0 0 0 - 0) = 0 ∧
    riseTransitSet L0 0 0 0 0 0 0 (-(Real.pi / 2)) = ((0 : ℝ) : EReal) := by
  obtain ⟨t, h1, h2, h3⟩ :=
    riseTransitSet_transit_hour_angle L0 0 0 0 0 0 0 L0_linear semiDiurnalArc_000_ne
  have ht : t = 0 := by
    have h0 : riseTransitSet L0 0 0 0 0 0 0 0 = ((0 : ℝ) : EReal) := by
      rw [riseTransitSet_sign_zero L0 0 0 0 0 0 0 semiDiurnalArc_000_ne]
      congr 1
      norm_num [L0, modPi_zero]
    rw [h0] at h1
    exact_mod_cast h1.symm
  have hsdapi : semiDiurnalArc 0 0 (-(Real.pi / 2)) ≠ 0 := by
    have hc : cosHA 0 0 (-(Real.pi / 2)) = -1 := by simp [cosHA]
    have : semiDiurnalArc 0 0 (-(Real.pi / 2)) = kPi := by
      rw [semiDiurnalArc, hc, if_neg (by norm_num), if_pos (by norm_num)]
    rw [this, kPi]
    exact Real.pi_ne_zero
  subst ht
  exact ⟨h1, h2, h3 _ hsdapi⟩

/-! ## Claim C9 -/

theorem searchAux_zero (P : Services) (sign : ℤ) (alt t : ℝ) :
    searchAux P sign alt 0 t = (riseTransitSetObj P t sign alt, t) := rfl

theorem searchAux_succ (P : Services) (sign : ℤ) (alt : ℝ) (fuel : ℕ) (t : ℝ) :
    searchAux P sign alt (fuel + 1) t =
      (if riseTransitSetObj P t sign alt = ⊤ ∨ riseTransitSetObj P t sign alt = ⊥ then
        (riseTransitSetObj P t sign alt, t)
      else if |(riseTransitSetObj P t sign alt).toReal - t| ≤ precision then
        (riseTransitSetObj P t sign alt, t)
      else searchAux P sign alt fuel (riseTransitSetObj P t sign alt).toReal) := rfl

theorem searchStepsAux_succ (P : Services) (sign : ℤ) (alt : ℝ) (fuel : ℕ) (t : ℝ) :
    searchStepsAux P sign alt (fuel + 1) t =
      (if riseTransitSetObj P t sign alt = ⊤ ∨ riseTransitSetObj P t sign alt = ⊥ then 1
      else if |(riseTransitSetObj P t sign alt).toReal - t| ≤ precision then 1
      else 1 + searchStepsAux P sign alt fuel (riseTransitSetObj P t sign alt).toReal) := rfl

theorem guessSeq_succ (P : Services) (sign : ℤ) (alt t0 : ℝ) (n : ℕ) :
    guessSeq P sign alt t0 (n + 1) =
      (if guessSeq P sign alt t0 n = ⊤ ∨ guessSeq P sign alt t0 n = ⊥ then
        guessSeq P sign alt t0 n
      else riseTransitSetObj P (guessSeq P sign alt t0 n).toReal sign alt) := rfl

theorem guessSeq_one (P : Services) (sign : ℤ) (alt t0 : ℝ) :
    guessSeq P sign alt t0 1 = riseTransitSetObj P t0 sign alt := by
  have h0 : guessSeq P sign alt t0 0 = ((t0 : ℝ) : EReal) := rfl
  rw [guessSeq_succ, h0, if_neg (by simp), EReal.toReal_coe]

theorem guessSeq_shift (P : Services) (sign : ℤ) (alt : ℝ) {t0 t1 : ℝ}
    (h1 : riseTransitSetObj P t0 sign alt = ((t1 : ℝ) : EReal)) :
    ∀ m, guessSeq P sign alt t0 (m + 1) = guessSeq P sign alt t1 m := by
  intro m
  induction m with
  | zero => rw [guessSeq_one, h1]; rfl
  | succ k ih => rw [guessSeq_succ, ih, ← guessSeq_succ]

theorem searchAux_spec (P : Services) (sign : ℤ) (alt : ℝ) :
    ∀ fuel t0,
      (searchAux P sign alt fuel t0).1 =
        guessSeq P sign alt t0 (searchStepsAux P sign alt fuel t0) ∧
      1 ≤ searchStepsAux P sign alt fuel t0 ∧
      searchStepsAux P sign alt fuel t0 ≤ fuel + 1 ∧
      (searchStepsAux P sign alt fuel t0 = fuel + 1 ∨
        guessSeq P sign alt t0 (searchStepsAux P sign alt fuel t0) = ⊤ ∨
        guessSeq P sign alt t0 (searchStepsAux P sign alt fuel t0) = ⊥ ∨
        |(guessSeq P sign alt t0 (searchStepsAux P sign alt fuel t0)).toReal -
          (guessSeq P sign alt t0 (searchStepsAux P sign alt fuel t0 - 1)).toReal| ≤ precision) ∧
      (∀ m, m + 1 < searchStepsAux P sign alt fuel t0 →
        guessSeq P sign alt t0 (m + 1) ≠ ⊤ ∧ guessSeq P sign alt t0 (m + 1) ≠ ⊥ ∧
        precision < |(guessSeq P sign alt t0 (m + 1)).toReal -
          (guessSeq P sign alt t0 m).toReal|) := by
  intro fuel
  induction fuel with
  | zero =>
    intro t0
    have hs : searchStepsAux P sign alt 0 t0 = 1 := rfl
    rw [searchAux_zero, hs, guessSeq_one]
    refine ⟨rfl, le_refl 1, le_refl 1, Or.inl rfl, ?_⟩
    intro m hm
    omega
  | succ f ih =>
    intro t0
    by_cases hc1 : riseTransitSetObj P t0 sign alt = ⊤ ∨ riseTransitSetObj P t0 sign alt = ⊥
    · have hs : searchStepsAux P sign alt (f + 1) t0 = 1 := by
        rw [searchStepsAux_succ, if_pos hc1]
      rw [searchAux_succ, if_pos hc1, hs, guessSeq_one]
      refine ⟨rfl, le_refl 1, by omega, ?_, ?_⟩
      · rcases hc1 with h | h
        · exact Or.inr (Or.inl h)
        · exact Or.inr (Or.inr (Or.inl h))
      · intro m hm
        omega
    · by_cases hc2 : |(riseTransitSetObj P t0 sign alt).toReal - t0| ≤ precision
      · have hs : searchStepsAux P sign alt (f + 1) t0 = 1 := by
          rw [searchStepsAux_succ, if_neg hc1, if_pos hc2]
        rw [searchAux_succ, if_neg hc1, if_pos hc2, hs, guessSeq_one]
        refine ⟨rfl, le_refl 1, by omega, ?_, ?_⟩
        · right; right; right
          have h0 : (guessSeq P sign alt t0 (1 - 1)).toReal = t0 := EReal.toReal_coe t0
          rw [h0]
          exact hc2
        · intro m hm
          omega
      · push_neg at hc1
        have hfin : riseTransitSetObj P t0 sign alt =
            (((riseTransitSetObj P t0 sign alt).toReal : ℝ) : EReal) :=
          (EReal.coe_toReal hc1.1 hc1.2).symm
        set t1 := (riseTransitSetObj P t0 sign alt).toReal with ht1
        have hc1o : ¬(riseTransitSetObj P t0 sign alt = ⊤ ∨
            riseTransitSetObj P t0 sign alt = ⊥) := by
          push_neg
          exact hc1
        have hshift := guessSeq_shift P sign alt hfin
        have hs : searchStepsAux P sign alt (f + 1) t0 =
            1 + searchStepsAux P sign alt f t1 := by
          rw [searchStepsAux_succ, if_neg hc1o, if_neg hc2]
        have ha : searchAux P sign alt (f + 1) t0 = searchAux P sign alt f t1 := by
          rw [searchAux_succ, if_neg hc1o, if_neg hc2]
        obtain ⟨ih1, ih2, ih3, ih4, ih5⟩ := ih t1
        set n2 := searchStepsAux P sign alt f t1 with hn2
        have he1 : 1 + n2 = n2 + 1 := by omega
        refine ⟨?_, ?_, ?_, ?_, ?_⟩
        · rw [ha, ih1, hs, he1, hshift n2]
        · rw [hs]; omega
        · rw [hs]; omega
        · rcases ih4 with h4 | h4 | h4 | h4
          · left; rw [hs, h4]; omega
          · right; left; rw [hs, he1, hshift n2]; exact h4
          · right; right; left; rw [hs, he1, hshift n2]; exact h4
          · right; right; right
            rw [hs, he1, hshift n2]
            have e2 : n2 + 1 - 1 = n2 := by omega
            rw [e2]
            have e4 : n2 - 1 + 1 = n2 := by omega
            have h5 := hshift (n2 - 1)
            rw [e4] at h5
            rw [h5]
            exact h4
        · intro m hm
          rw [hs] at hm
          match m with
          | 0 =>
            push_neg at hc2
            refine ⟨?_, ?_, ?_⟩
            · rw [guessSeq_one, hfin]; exact EReal.coe_ne_top _
            · rw [guessSeq_one, hfin]; exact EReal.coe_ne_bot _
            · rw [guessSeq_one]
              have h0 : (guessSeq P sign alt t0 0).toReal = t0 := EReal.toReal_coe t0
              rw [h0]
              exact hc2
          | m' + 1 =>
            have hm' : m' + 1 < n2 := by omega
            obtain ⟨p1, p2, p3⟩ := ih5 m' hm'
            rw [hshift (m' + 1), hshift m']
            exact ⟨p1, p2, p3⟩

/-- C9: the riseTransitSetSearch loop performs between 1 and 10 iterations
(so it always terminates); the returned value is exactly the last guess of the
iteration; the loop stops only because the cap of 10 was reached, the guess
became ±∞, or two successive guesses differ by at most 1 second of time
(1/86400 day); and it never stops earlier: before the final iteration every
pair of successive guesses is finite and differs by more than the tolerance. -/
theorem riseTransitSetSearch_iteration_cap (P : Services) (sign : ℤ) (alt t0 : ℝ)
    (st : SSCoordinatesState) :
    1 ≤ searchSteps P sign alt t0 ∧ searchSteps P sign alt t0 ≤ 10 ∧
    (riseTransitSetSearch P sign alt t0 st).1 =
      guessSeq P sign alt t0 (searchSteps P sign alt t0) ∧
    (searchSteps P sign alt t0 = 10 ∨
      guessSeq P sign alt t0 (searchSteps P sign alt t0) = ⊤ ∨
      guessSeq P sign alt t0 (searchSteps P sign alt t0) = ⊥ ∨
      |(guessSeq P sign alt t0 (searchSteps P sign alt t0)).toReal -
        (guessSeq P sign alt t0 (searchSteps P sign alt t0 - 1)).toReal| ≤ precision) ∧
    (∀ m, m + 1 < searchSteps P sign alt t0 →
      guessSeq P sign alt t0 (m + 1) ≠ ⊤ ∧ guessSeq P sign alt t0 (m + 1) ≠ ⊥ ∧
      precision < |(guessSeq P sign alt t0 (m + 1)).toReal -
        (guessSeq P sign alt t0 m).toReal|) := by
  obtain ⟨h1, h2, h3, h4, h5⟩ := searchAux_spec P sign alt 9 t0
  have hss : searchSteps P sign alt t0 = searchStepsAux P sign alt 9 t0 := rfl
  have hrs : (riseTransitSetSearch P sign alt t0 st).1 = (searchAux P sign alt 9 t0).1 := rfl
  rw [hss, hrs]
  exact ⟨h2, by omega, h1, h4, h5⟩

/-! ## Claim C4 -/

theorem ereal_between_finite {x : EReal} {a b : ℝ}
    (h : ¬(x > (b : EReal) ∨ x < (a : EReal))) :
    ∃ t : ℝ, x = ((t : ℝ) : EReal) ∧ a ≤ t ∧ t ≤ b := by
  push_neg at h
  obtain ⟨hb, ha⟩ := h
  have hxt : x ≠ ⊤ := fun hx => (EReal.coe_ne_top b) (top_le_iff.mp (hx ▸ hb))
  have hxb : x ≠ ⊥ := fun hx => (EReal.coe_ne_bot a) (le_bot_iff.mp (hx ▸ ha))
  refine ⟨x.toReal, (EReal.coe_toReal hxt hxb).symm, ?_, ?_⟩
  · rw [← EReal.coe_le_coe_iff, EReal.coe_toReal hxt hxb]
    exact ha
  · rw [← EReal.coe_le_coe_iff, EReal.coe_toReal hxt hxb]
    exact hb

theorem dayClamp_spec (sign : ℤ) (start dayEnd : ℝ) (r : EReal × SSCoordinatesState) :
    (∃ t : ℝ, (dayClamp sign start dayEnd r).1 = ((t : ℝ) : EReal) ∧
      start ≤ t ∧ t ≤ dayEnd) ∨
    (sign = -1 ∧ (dayClamp sign start dayEnd r).1 = ⊥) ∨
    (sign ≠ -1 ∧ (dayClamp sign start dayEnd r).1 = ⊤) := by
  rw [dayClamp]
  split_ifs with h1 h2
  · exact Or.inr (Or.inl ⟨h2, rfl⟩)
  · exact Or.inr (Or.inr ⟨h2, rfl⟩)
  · exact Or.inl (ereal_between_finite h1)

/-- C4 (amended): riseTransitSetSearchDay returns either a finite time t with
localMidnight ≤ t ≤ localMidnight + 1 — the right day-boundary included, since
the out-of-day test uses strict comparisons — or -∞ when sign = -1 (rise
query), or +∞ otherwise.  The original claim's half-open interval
[midnight, midnight + 1) fails exactly at the right endpoint (see the
counterexample, where the finite time midnight + 1 is returned). -/
theorem riseTransitSetSearchDay_day_bounds (P : Services) (sign : ℤ) (alt today : ℝ)
    (st : SSCoordinatesState) :
    (∃ t : ℝ, (riseTransitSetSearchDay P sign alt today st).1 = ((t : ℝ) : EReal) ∧
      P.localMidnight today ≤ t ∧ t ≤ P.localMidnight today + 1) ∨
    (sign = -1 ∧ (riseTransitSetSearchDay P sign alt today st).1 = ⊥) ∨
    (sign ≠ -1 ∧ (riseTransitSetSearchDay P sign alt today st).1 = ⊤) :=
  dayClamp_spec sign (P.localMidnight today) (P.localMidnight today + 1) _

/-- A right ascension history that makes the transit search step from local
noon (0.5) through 0.75 to exactly 1.0 — the end of the local day. -/
noncomputable def raC4 : ℝ → ℝ := fun t =>
  if t = 0.5 then 3 * Real.pi * kSiderealPerSolarDays / 2
  else 2 * Real.pi * kSiderealPerSolarDays

/-- Concrete service instance for the C4 counterexample: linear sidereal time,
local midnight at 0, observer at the origin, object on the equator with the
raC4 right-ascension history. -/
noncomputable def P0C4 : Services :=
  { lst := L0
    localMidnight := fun _ => 0
    lon := 0
    lat := 0
    raOf := raC4
    decOf := fun _ => 0
    azmOf := fun _ => 0
    altOf := fun _ => 0 }

theorem modPi_half_pi_k :
    modPi (Real.pi * kSiderealPerSolarDays / 2) = Real.pi * kSiderealPerSolarDays / 2 := by
  have hpi : (0 : ℝ) < Real.pi := Real.pi_pos
  obtain ⟨hk1, hk2⟩ := kSiderealPerSolarDays_bounds
  apply modPi_eq_self
  · rw [kPi]
    nlinarith
  · rw [kPi]
    nlinarith

theorem quarter_step (x : ℝ) :
    x + (Real.pi * kSiderealPerSolarDays / 2) / kTwoPi / kSiderealPerSolarDays = x + 0.25 := by
  have hpi0 : Real.pi ≠ 0 := Real.pi_ne_zero
  have hk0 : kSiderealPerSolarDays ≠ 0 := by
    have := kSiderealPerSolarDays_bounds.1
    linarith
  rw [kTwoPi]
  field_simp
  ring

theorem rtsObj_C4_05 : riseTransitSetObj P0C4 0.5 0 0 = ((0.75 : ℝ) : EReal) := by
  have h0 : riseTransitSetObj P0C4 0.5 0 0 = riseTransitSet L0 0.5 (raC4 0.5) 0 0 0 0 0 := rfl
  rw [h0, riseTransitSet_sign_zero _ _ _ _ _ _ _ semiDiurnalArc_000_ne]
  congr 1
  have hra : raC4 0.5 = 3 * Real.pi * kSiderealPerSolarDays / 2 := by
    rw [raC4, if_pos rfl]
  have hL : L0 0.5 0 = Real.pi * kSiderealPerSolarDays := by
    rw [L0, kTwoPi]
    ring
  rw [hra, hL]
  rw [show 3 * Real.pi * kSiderealPerSolarDays / 2 - Real.pi * kSiderealPerSolarDays =
      Real.pi * kSiderealPerSolarDays / 2 from by ring]
  rw [modPi_half_pi_k, quarter_step]
  norm_num

theorem rtsObj_C4_075 : riseTransitSetObj P0C4 0.75 0 0 = ((1 : ℝ) : EReal) := by
  have h0 : riseTransitSetObj P0C4 0.75 0 0 = riseTransitSet L0 0.75 (raC4 0.75) 0 0 0 0 0 := rfl
  rw [h0, riseTransitSet_sign_zero _ _ _ _ _ _ _ semiDiurnalArc_000_ne]
  congr 1
  have hra : raC4 0.75 = 2 * Real.pi * kSiderealPerSolarDays := by
    rw [raC4, if_neg (by norm_num)]
  have hL : L0 0.75 0 = 3 * Real.pi * kSiderealPerSolarDays / 2 := by
    rw [L0, kTwoPi]
    ring
  rw [hra, hL]
  rw [show 2 * Real.pi * kSiderealPerSolarDays - 3 * Real.pi * kSiderealPerSolarDays / 2 =
      Real.pi * kSiderealPerSolarDays / 2 from by ring]
  rw [modPi_half_pi_k, quarter_step]
  norm_num

theorem rtsObj_C4_1 : riseTransitSetObj P0C4 1 0 0 = ((1 : ℝ) : EReal) := by
  have h0 : riseTransitSetObj P0C4 1 0 0 = riseTransitSet L0 1 (raC4 1) 0 0 0 0 0 := rfl
  rw [h0, riseTransitSet_sign_zero _ _ _ _ _ _ _ semiDiurnalArc_000_ne]
  congr 1
  have hra : raC4 1 = 2 * Real.pi * kSiderealPerSolarDays := by
    rw [raC4, if_neg (by norm_num)]
  have hL : L0 1 0 = 2 * Real.pi * kSiderealPerSolarDays := by
    rw [L0, kTwoPi]
    ring
  rw [hra, hL]
  rw [show 2 * Real.pi * kSiderealPerSolarDays - 2 * Real.pi * kSiderealPerSolarDays =
      (0 : ℝ) from by ring]
  rw [modPi_zero]
  norm_num

theorem coe_not_inf (x : ℝ) : ¬(((x : ℝ) : EReal) = ⊤ ∨ ((x : ℝ) : EReal) = ⊥) := by
  push_neg
  exact ⟨EReal.coe_ne_top x, EReal.coe_ne_bot x⟩

theorem searchAux_C4 : searchAux P0C4 0 0 9 0.5 = (((1 : ℝ) : EReal), 1) := by
  have habs1 : ¬(|(0.75 : ℝ) - 0.5| ≤ precision) := by
    rw [precision, kSecondsPerDay,
      show (0.75 : ℝ) - 0.5 = 0.25 from by norm_num,
      abs_of_pos (by norm_num : (0 : ℝ) < 0.25)]
    norm_num
  have habs2 : ¬(|(1 : ℝ) - 0.75| ≤ precision) := by
    rw [precision, kSecondsPerDay,
      show (1 : ℝ) - 0.75 = 0.25 from by norm_num,
      abs_of_pos (by norm_num : (0 : ℝ) < 0.25)]
    norm_num
  have habs3 : |(1 : ℝ) - 1| ≤ precision := by
    rw [precision, kSecondsPerDay, show (1 : ℝ) - 1 = 0 from by norm_num, abs_zero]
    norm_num
  rw [show (9 : ℕ) = 8 + 1 from rfl, searchAux_succ, rtsObj_C4_05, EReal.toReal_coe,
    if_neg (coe_not_inf 0.75), if_neg habs1]
  rw [show (8 : ℕ) = 7 + 1 from rfl, searchAux_succ, rtsObj_C4_075, EReal.toReal_coe,
    if_neg (coe_not_inf 1), if_neg habs2]
  rw [show (7 : ℕ) = 6 + 1 from rfl, searchAux_succ, rtsObj_C4_1, EReal.toReal_coe,
    if_neg (coe_not_inf 1), if_pos habs3]

/-- C4 counterexample: a concrete moving object for which the transit search
converges to exactly localMidnight + 1 — the right endpoint of the day — and
riseTransitSetSearchDay returns that finite boundary time, which lies outside
the claimed half-open interval [midnight, midnight + 1) yet is not ±∞. -/
theorem riseTransitSetSearchDay_boundary_counterexample :
    (riseTransitSetSearchDay P0C4 0 0 0.3 ⟨0, 0⟩).1 = ((1 : ℝ) : EReal) ∧
    P0C4.localMidnight 0.3 = 0 ∧ ¬((1 : ℝ) < 0 + 1) := by
  have hmid : P0C4.localMidnight 0.3 = 0 := rfl
  refine ⟨?_, hmid, by norm_num⟩
  have hsearch : riseTransitSetSearch P0C4 0 0 (P0C4.localMidnight 0.3 + 0.5) ⟨0, 0⟩ =
      (((1 : ℝ) : EReal), (⟨1, 1⟩ : SSCoordinatesState)) := by
    rw [show P0C4.localMidnight 0.3 + 0.5 = (0.5 : ℝ) from by rw [hmid]; norm_num]
    show (((searchAux P0C4 0 0 9 0.5).1, ⟨(searchAux P0C4 0 0 9 0.5).2,
      (searchAux P0C4 0 0 9 0.5).2⟩) : EReal × SSCoordinatesState) = _
    rw [searchAux_C4]
  simp only [riseTransitSetSearchDay]
  rw [hsearch]
  have hgt : ¬(((1 : ℝ) : EReal) > ((P0C4.localMidnight 0.3 + 1 : ℝ) : EReal)) := by
    rw [hmid, gt_iff_lt, EReal.coe_lt_coe_iff]
    norm_num
  have hlt : ¬(((1 : ℝ) : EReal) < ((P0C4.localMidnight 0.3 : ℝ) : EReal)) := by
    rw [hmid, EReal.coe_lt_coe_iff]
    norm_num
  rw [if_neg hgt, if_neg hlt, dayClamp]
  rw [if_neg (by push_neg; exact ⟨le_of_not_lt hgt, le_of_not_lt hlt⟩)]

/-! ## Claim C5 -/

theorem findSatAux_succ (P : Services) (start stop minAlt : ℝ) (fuel : ℕ) (time : ℝ)
    (s : SatState) :
    findSatAux P start stop minAlt (fuel + 1) time s =
      (if time ≤ stop then
        findSatAux P start stop minAlt fuel (time + satStep (P.altOf time))
          { (if time > start then
              satProcess minAlt time (P.azmOf time) (P.altOf time)
                { s with ct := (⟨time, time⟩ : SSCoordinatesState) }
            else { s with ct := (⟨time, time⟩ : SSCoordinatesState) }) with
            oldAlt := P.altOf time }
      else s) := rfl

/-- The sweep's result list does not depend on the incoming context state:
the loop overwrites the context before ever reading it. -/
theorem findSatAux_passes_ct_irrel (P : Services) (start stop minAlt : ℝ)
    (fuel : ℕ) (time : ℝ) (p : SSPass) (m o : ℝ) (ps : List SSPass)
    (c c2 : SSCoordinatesState) :
    (findSatAux P start stop minAlt fuel time ⟨p, m, o, ps, c⟩).passes =
    (findSatAux P start stop minAlt fuel time ⟨p, m, o, ps, c2⟩).passes := by
  cases fuel with
  | zero => rfl
  | succ f =>
    rw [findSatAux_succ, findSatAux_succ]
    by_cases h : time ≤ stop
    · rw [if_pos h, if_pos h]
    · rw [if_neg h, if_neg h]

/-- C5: both the SSPass-returning riseTransitSet overload and
findSatellitePasses return with the context time equal to its value before
the call and with the ephemeris recomputed at that restored time; and their
returned Pass values do not depend on the incoming context state at all, so
two consecutive calls with identical arguments (the second starting from the
state the first call leaves behind) yield identical results. -/
theorem pass_queries_restore_context (P : Services) (today alt start stop minAlt : ℝ)
    (passes0 : List SSPass) (st st2 : SSCoordinatesState) :
    (riseTransitSetPass P today alt st).2 = ⟨st.time, st.time⟩ ∧
    (riseTransitSetPass P today alt st2).1 = (riseTransitSetPass P today alt st).1 ∧
    (findSatellitePasses P start stop minAlt passes0 st).2.2 = ⟨st.time, st.time⟩ ∧
    (findSatellitePasses P start stop minAlt passes0 st2).2.1 =
      (findSatellitePasses P start stop minAlt passes0 st).2.1 ∧
    (findSatellitePasses P start stop minAlt passes0 st2).1 =
      (findSatellitePasses P start stop minAlt passes0 st).1 := by
  have hpasses : (findSatellitePasses P start stop minAlt passes0 st2).2.1 =
      (findSatellitePasses P start stop minAlt passes0 st).2.1 :=
    findSatAux_passes_ct_irrel P start stop minAlt (satFuel start stop) start
      zeroPass 0 0 passes0 st2 st
  exact ⟨rfl, rfl, rfl, hpasses, congrArg List.length hpasses⟩

/-! ## Claim C8 -/

/-- The per-pass invariant for passes emitted by findSatellitePasses:
rising at or before transit, transit strictly before setting, rising altitude
above the threshold, transit altitude at least the rising altitude (and so at
least the threshold), setting altitude below the threshold. -/
def GoodPass (minAlt : ℝ) (p : SSPass) : Prop :=
  p.rising.time ≤ p.transit.time ∧ p.transit.time < p.setting.time ∧
  minAlt < p.rising.alt ∧ p.rising.alt ≤ p.transit.alt ∧
  minAlt ≤ p.transit.alt ∧ p.setting.alt < minAlt

/-- Loop-head invariant of the findSatellitePasses sweep at current sample
time `tcur`: either the previous sample was below the threshold and the
running peak does not exceed it (between passes), or the previous sample was
above the threshold and the in-progress pass has a consistent rising/transit
pair whose peak is the running maximum (inside a pass). -/
def SatInv (minAlt tcur : ℝ) (s : SatState) : Prop :=
  (s.oldAlt < minAlt ∧ s.maxAlt ≤ minAlt) ∨
  (minAlt < s.oldAlt ∧ minAlt < s.pass.rising.alt ∧ s.pass.rising.alt ≤ s.maxAlt ∧
    s.pass.transit.alt = s.maxAlt ∧ s.pass.rising.time ≤ s.pass.transit.time ∧
    s.pass.transit.time < ((tcur : ℝ) : EReal))

theorem satStep_pos (x : ℝ) : 0 < satStep x := by
  rw [satStep]
  split_ifs
  · rw [kSecondsPerDay]; norm_num
  · rw [kMinutesPerDay]; norm_num

/-- One detection block preserves the sweep invariant and can only append a
pass satisfying GoodPass.  Stated over the components of the loop state. -/
theorem satProcess_step (minAlt time azm alt tnext : ℝ) (rE tE sE : SSPassEvent)
    (ma oa : ℝ) (ps : List SSPass) (ct : SSCoordinatesState)
    (hm : 0 ≤ minAlt) (halt : alt ≠ minAlt) (htn : time < tnext)
    (hinv : SatInv minAlt time ⟨⟨rE, tE, sE⟩, ma, oa, ps, ct⟩) :
    SatInv minAlt tnext
      { satProcess minAlt time azm alt ⟨⟨rE, tE, sE⟩, ma, oa, ps, ct⟩ with oldAlt := alt } ∧
    ((satProcess minAlt time azm alt ⟨⟨rE, tE, sE⟩, ma, oa, ps, ct⟩).passes = ps ∨
      ∃ q, (satProcess minAlt time azm alt ⟨⟨rE, tE, sE⟩, ma, oa, ps, ct⟩).passes =
        ps ++ [q] ∧ GoodPass minAlt q) := by
  have hco : ((time : ℝ) : EReal) < ((tnext : ℝ) : EReal) := EReal.coe_lt_coe_iff.mpr htn
  simp only [SatInv] at hinv
  simp only [satProcess, SatInv, GoodPass]
  split_ifs with ha hb hc hd he hf2 hg <;> dsimp only at *
  · -- rising ∧ transit ∧ setting: impossible (oldAlt both below and above)
    exact absurd hc.1 (not_lt.mpr (le_of_lt ha.2))
  · -- rising crossing with transit refresh, no setting
    exact ⟨Or.inr ⟨ha.1, ha.1, le_refl alt, rfl, le_refl _, hco⟩, Or.inl rfl⟩
  · -- rising, no transit, setting: impossible
    exact absurd hd.1 (not_lt.mpr (le_of_lt ha.2))
  · -- rising without transit refresh: impossible given the invariant
    exfalso
    rcases hinv with ⟨hA1, hA2⟩ | ⟨hB1, _, _, _, _, _⟩
    · exact hb (lt_of_le_of_lt hA2 ha.1)
    · exact absurd hB1 (not_lt.mpr (le_of_lt ha.2))
  · -- no rising but transit refresh at a setting crossing: impossible
    exfalso
    rcases hinv with ⟨hA1, _⟩ | ⟨_, hB2, hB3, _, _, _⟩
    · exact absurd hf2.1 (not_lt.mpr (le_of_lt hA1))
    · exact absurd he (not_lt.mpr (le_of_lt (lt_trans hf2.2 (lt_of_lt_of_le hB2 hB3))))
  · -- transit refresh only
    rcases hinv with ⟨hA1, _⟩ | ⟨hB1, hB2, hB3, _, hB5, hB6⟩
    · have hlt : alt < minAlt := by
        rcases lt_or_gt_of_ne halt with h | h
        · exact h
        · exact absurd ⟨h, hA1⟩ ha
      exact ⟨Or.inl ⟨hlt, le_of_lt hlt⟩, Or.inl rfl⟩
    · have hgt : minAlt < alt := by
        rcases lt_or_gt_of_ne halt with h | h
        · exact absurd ⟨hB1, h⟩ hf2
        · exact h
      exact ⟨Or.inr ⟨hgt, hB2, le_of_lt (lt_of_le_of_lt hB3 he), rfl,
        le_of_lt (lt_of_le_of_lt hB5 hB6), hco⟩, Or.inl rfl⟩
  · -- setting crossing: the pass is emitted and satisfies GoodPass
    rcases hinv with ⟨hA1, _⟩ | ⟨_, hB2, hB3, hB4, hB5, hB6⟩
    · exact absurd hg.1 (not_lt.mpr (le_of_lt hA1))
    · refine ⟨Or.inl ⟨hg.2, hm⟩, Or.inr ⟨⟨rE, tE, ⟨((time : ℝ) : EReal), azm, alt⟩⟩,
        rfl, hB5, hB6, hB2, ?_, ?_, hg.2⟩⟩
      · rw [hB4]; exact hB3
      · rw [hB4]; exact le_of_lt (lt_of_lt_of_le hB2 hB3)
  · -- no event at this sample
    rcases hinv with ⟨hA1, hA2⟩ | ⟨hB1, hB2, hB3, hB4, hB5, hB6⟩
    · have hlt : alt < minAlt := by
        rcases lt_or_gt_of_ne halt with h | h
        · exact h
        · exact absurd ⟨h, hA1⟩ ha
      exact ⟨Or.inl ⟨hlt, hA2⟩, Or.inl rfl⟩
    · have hgt : minAlt < alt := by
        rcases lt_or_gt_of_ne halt with h | h
        · exact absurd ⟨hB1, h⟩ hg
        · exact h
      exact ⟨Or.inr ⟨hgt, hB2, hB3, hB4, hB5, lt_trans hB6 hco⟩, Or.inl rfl⟩

/-- Every pass the sweep appends from a loop state satisfying the invariant
satisfies GoodPass. -/
theorem findSatAux_emits_good (P : Services) (start stop minAlt : ℝ)
    (hm : 0 ≤ minAlt) (hne : ∀ t : ℝ, P.altOf t ≠ minAlt) :
    ∀ (fuel : ℕ) (time : ℝ) (s : SatState), start < time → SatInv minAlt time s →
      ∀ p ∈ (findSatAux P start stop minAlt fuel time s).passes,
        p ∈ s.passes ∨ GoodPass minAlt p := by
  intro fuel
  induction fuel with
  | zero =>
    intro time s ht hinv p hp
    exact Or.inl hp
  | succ f ih =>
    intro time s ht hinv p hp
    obtain ⟨⟨rE, tE, sE⟩, ma, oa, ps, ct⟩ := s
    rw [findSatAux_succ] at hp
    by_cases hts : time ≤ stop
    · rw [if_pos hts, if_pos ht] at hp
      dsimp only at hp
      have hstep : time < time + satStep (P.altOf time) := by
        have := satStep_pos (P.altOf time)
        linarith
      obtain ⟨hinv2, hpass2⟩ := satProcess_step minAlt time (P.azmOf time) (P.altOf time)
        (time + satStep (P.altOf time)) rE tE sE ma oa ps
        (⟨time, time⟩ : SSCoordinatesState) hm (hne time) hstep hinv
      have hres := ih (time + satStep (P.altOf time)) _ (lt_trans ht hstep) hinv2 p hp
      rcases hres with hmem | hgood
      · rcases hpass2 with heq | ⟨q, heq, hq⟩
        · left
          rw [heq] at hmem
          exact hmem
        · rw [heq] at hmem
          rcases List.mem_append.mp hmem with h1 | h2
          · left; exact h1
          · right
            rw [List.mem_singleton.mp h2]
            exact hq
      · right; exact hgood
    · rw [if_neg hts] at hp
      exact Or.inl hp

/-- C8 (amended): provided minAltitude ≥ 0, the altitude at the start sample
is below minAltitude, and no sample altitude ever equals minAltitude exactly,
every pass emitted by findSatellitePasses (beyond the caller's pre-existing
vector contents) satisfies: rising.time ≤ transit.time < setting.time (the
transit may coincide with the rising sample, so the original strict
rising.time < transit.time fails — see the counterexample), the recorded
transit altitude is ≥ minAltitude (indeed ≥ the rising altitude), the
recorded rising altitude is > minAltitude, and the recorded setting altitude
is < minAltitude — the two threshold-side comparisons being exact, each one
sample past the crossing. -/
theorem findSatellitePasses_invariants (P : Services) (start stop minAlt : ℝ)
    (passes0 : List SSPass) (st : SSCoordinatesState)
    (hm : 0 ≤ minAlt) (hne : ∀ t : ℝ, P.altOf t ≠ minAlt)
    (hstart : P.altOf start < minAlt) :
    ∀ p ∈ (findSatellitePasses P start stop minAlt passes0 st).2.1,
      p ∈ passes0 ∨ GoodPass minAlt p := by
  intro p hp
  obtain ⟨f, hf⟩ : ∃ f, satFuel start stop = f + 1 :=
    ⟨(⌈(stop - start) * kSecondsPerDay⌉).toNat + 1, by rw [satFuel]⟩
  have hp2 : p ∈ (findSatAux P start stop minAlt (satFuel start stop) start
      (⟨zeroPass, 0, 0, passes0, st⟩ : SatState)).passes := hp
  rw [hf, findSatAux_succ] at hp2
  by_cases hts : start ≤ stop
  · rw [if_pos hts, if_neg (lt_irrefl start)] at hp2
    have hstep : start < start + satStep (P.altOf start) := by
      have := satStep_pos (P.altOf start)
      linarith
    have hinv : SatInv minAlt (start + satStep (P.altOf start))
        { ({ (⟨zeroPass, 0, 0, passes0, st⟩ : SatState) with
            ct := (⟨start, start⟩ : SSCoordinatesState) }) with oldAlt := P.altOf start } :=
      Or.inl ⟨hstart, hm⟩
    have hres := findSatAux_emits_good P start stop minAlt hm hne f
      (start + satStep (P.altOf start)) _ hstep hinv p hp2
    rcases hres with hmem | hgood
    · left; exact hmem
    · right; exact hgood
  · rw [if_neg hts] at hp2
    left
    exact hp2

/-! ### Concrete three-sample sweep for the C8 counterexample and witness -/

/-- Altitude profile (radians): below the 0.1 threshold at the start sample,
peaks at 0.3 exactly at the sample where it first crosses the threshold, then
drops to 0.05. -/
noncomputable def altCex : ℝ → ℝ := fun t =>
  if t < 1 / 86400 then 0 else if t < 2 / 86400 then 0.3 else 0.05

/-- Concrete service instance for the C8 counterexample. -/
noncomputable def PCex : Services :=
  { lst := fun _ _ => 0
    localMidnight := fun _ => 0
    lon := 0
    lat := 0
    raOf := fun _ => 0
    decOf := fun _ => 0
    azmOf := fun _ => 0
    altOf := altCex }

/-- The single pass emitted by the sweep over altCex from 0 to 2 seconds. -/
noncomputable def pCex : SSPass :=
  ⟨⟨(((1 : ℝ) / 86400 : ℝ) : EReal), 0, 0.3⟩, ⟨(((1 : ℝ) / 86400 : ℝ) : EReal), 0, 0.3⟩,
    ⟨(((2 : ℝ) / 86400 : ℝ) : EReal), 0, 0.05⟩⟩

theorem altCex_0 : altCex 0 = 0 := by
  rw [altCex]
  norm_num

theorem altCex_1 : altCex (1 / 86400) = 0.3 := by
  rw [altCex, if_neg (by norm_num), if_pos (by norm_num)]

theorem altCex_2 : altCex (2 / 86400) = 0.05 := by
  rw [altCex, if_neg (by norm_num), if_neg (by norm_num)]

theorem altCex_ne (t : ℝ) : altCex t ≠ 0.1 := by
  rw [altCex]
  split_ifs <;> norm_num

theorem satStep_one_sec {x : ℝ} (hx : -57 ≤ x) : satStep x = 1 / kSecondsPerDay := by
  rw [satStep, if_pos]
  rw [kDegPerRad]
  have hpi : (0 : ℝ) < Real.pi := Real.pi_pos
  have hlt : Real.pi < 3.15 := by
    have := Real.pi_lt_315
    linarith
  have h57 : (57 : ℝ) < 180 / Real.pi := by
    rw [lt_div_iff hpi]
    nlinarith
  show -1 * (180 / Real.pi) < x
  nlinarith

theorem satFuel_Cex : satFuel 0 (2 / 86400) = 4 := by
  rw [satFuel, kSecondsPerDay]
  rw [show ((2 : ℝ) / 86400 - 0) * 86400 = ((2 : ℤ) : ℝ) from by norm_num]
  rw [Int.ceil_intCast]
  rfl

theorem findSatAux_exit (P : Services) (start stop minAlt : ℝ) (fuel : ℕ) (time : ℝ)
    (s : SatState) (h : ¬(time ≤ stop)) :
    findSatAux P start stop minAlt fuel time s = s := by
  cases fuel with
  | zero => rfl
  | succ f => rw [findSatAux_succ, if_neg h]

theorem satProcess_Cex_rise (ct : SSCoordinatesState) :
    satProcess 0.1 (1 / 86400) 0 0.3 ⟨zeroPass, 0, 0, [], ct⟩ =
      ⟨⟨⟨(((1 : ℝ) / 86400 : ℝ) : EReal), 0, 0.3⟩, ⟨(((1 : ℝ) / 86400 : ℝ) : EReal), 0, 0.3⟩,
        zeroPassEvent⟩, 0.3, 0, [], ct⟩ := by
  simp only [satProcess, zeroPass]
  split_ifs <;> dsimp only at * <;> first | rfl | (exfalso; norm_num at *)

theorem satProcess_Cex_set (ct : SSCoordinatesState) :
    satProcess 0.1 (2 / 86400) 0 0.05
      ⟨⟨⟨(((1 : ℝ) / 86400 : ℝ) : EReal), 0, 0.3⟩, ⟨(((1 : ℝ) / 86400 : ℝ) : EReal), 0, 0.3⟩,
        zeroPassEvent⟩, 0.3, 0.3, [], ct⟩ =
      ⟨pCex, 0, 0.3, [pCex], ct⟩ := by
  simp only [satProcess, pCex]
  split_ifs <;> dsimp only at * <;> first | rfl | (exfalso; norm_num at *)

theorem findSat_eval_Cex :
    (findSatellitePasses PCex 0 (2 / 86400) 0.1 [] ⟨0, 0⟩).2.1 = [pCex] := by
  show (findSatAux PCex 0 (2 / 86400) 0.1 (satFuel 0 (2 / 86400)) 0
    (⟨zeroPass, 0, 0, [], ⟨0, 0⟩⟩ : SatState)).passes = [pCex]
  rw [satFuel_Cex]
  -- sample 1 at time 0: seeds oldAlt only
  rw [show (4 : ℕ) = 3 + 1 from rfl, findSatAux_succ]
  rw [if_pos (by norm_num : (0 : ℝ) ≤ 2 / 86400), if_neg (lt_irrefl (0 : ℝ))]
  rw [show PCex.altOf 0 = (0 : ℝ) from altCex_0]
  rw [satStep_one_sec (by norm_num : (-57 : ℝ) ≤ 0), kSecondsPerDay]
  rw [show (0 : ℝ) + 1 / 86400 = 1 / 86400 from by norm_num]
  dsimp only
  -- sample 2 at time 1/86400: rising and transit crossing
  rw [show (3 : ℕ) = 2 + 1 from rfl, findSatAux_succ]
  rw [if_pos (by norm_num : (1 : ℝ) / 86400 ≤ 2 / 86400),
    if_pos (by norm_num : (1 : ℝ) / 86400 > 0)]
  rw [show PCex.altOf (1 / 86400) = (0.3 : ℝ) from altCex_1]
  rw [show PCex.azmOf (1 / 86400) = (0 : ℝ) from rfl]
  rw [satStep_one_sec (by norm_num : (-57 : ℝ) ≤ 0.3), kSecondsPerDay]
  rw [show (1 : ℝ) / 86400 + 1 / 86400 = 2 / 86400 from by norm_num]
  rw [show ({ (⟨zeroPass, 0, 0, [], (⟨0, 0⟩ : SSCoordinatesState)⟩ : SatState) with
      ct := (⟨1 / 86400, 1 / 86400⟩ : SSCoordinatesState) } : SatState) =
    (⟨zeroPass, 0, 0, [], ⟨1 / 86400, 1 / 86400⟩⟩ : SatState) from rfl]
  rw [satProcess_Cex_rise]
  dsimp only
  -- sample 3 at time 2/86400: setting crossing, pass emitted
  rw [show (2 : ℕ) = 1 + 1 from rfl, findSatAux_succ]
  rw [if_pos (by norm_num : (2 : ℝ) / 86400 ≤ 2 / 86400),
    if_pos (by norm_num : (2 : ℝ) / 86400 > 0)]
  rw [show PCex.altOf (2 / 86400) = (0.05 : ℝ) from altCex_2]
  rw [show PCex.azmOf (2 / 86400) = (0 : ℝ) from rfl]
  rw [satStep_one_sec (by norm_num : (-57 : ℝ) ≤ 0.05), kSecondsPerDay]
  rw [show (2 : ℝ) / 86400 + 1 / 86400 = 3 / 86400 from by norm_num]
  rw [satProcess_Cex_set]
  dsimp only
  -- sample 4 at time 3/86400 is past the stop time: the sweep ends
  rw [findSatAux_exit _ _ _ _ _ _ _ (by norm_num : ¬((3 : ℝ) / 86400 ≤ 2 / 86400))]

/-- C8 counterexample: the sweep over altCex emits exactly one pass whose
rising and transit were recorded at the same sample (the altitude peaked at
the rising sample), so rising.time = transit.time and the claimed strict
inequality rising.time < transit.time is false. -/
theorem findSatellitePasses_strict_counterexample :
    (findSatellitePasses PCex 0 (2 / 86400) 0.1 [] ⟨0, 0⟩).2.1 = [pCex] ∧
    pCex.rising.time = pCex.transit.time :=
  ⟨findSat_eval_Cex, rfl⟩

/-- Witness for C8 at the concrete altCex instance: the hypotheses hold
(0 ≤ 0.1, the profile starts below 0.1 and never equals it), and the single
emitted pass pCex satisfies the amended invariant GoodPass. -/
theorem findSatellitePasses_invariants_witness : GoodPass 0.1 pCex := by
  have h := findSatellitePasses_invariants PCex 0 (2 / 86400) 0.1 [] ⟨0, 0⟩
    (by norm_num) (fun t => altCex_ne t)
    (by rw [show PCex.altOf 0 = (0 : ℝ) from altCex_0]; norm_num)
  have hmem : pCex ∈ (findSatellitePasses PCex 0 (2 / 86400) 0.1 [] ⟨0, 0⟩).2.1 := by
    rw [findSat_eval_Cex]
    exact List.mem_singleton.mpr rfl
  rcases h pCex hmem with hin | hgood
  · exact absurd hin (List.not_mem_nil pCex)
  · exact hgood

end SSCore
